import Mathlib

/-!
Shallow embedding of the snapshot resampling, field interpolation and camera
path synthesis code of the forest-fire visualization pipeline
(src/visualization/video/scripts: data_exporter.py, interpolator.py,
camera_paths.py).  Machine reals are modelled as rationals; the scipy
collaborators (interp1d, gaussian_filter) and the per-call random draws are
passed in explicitly as parameters, so every function stays a pure,
executable definition mirroring the Python control flow.
-/

set_option autoImplicit false

namespace ForestFire

/-- Discrete cell state of the fire grid (data model shared by both files). -/
inductive CellState
  | Empty
  | Tree
  | Burning
  | Burnt
  deriving DecidableEq, Repr, Inhabited

/-- The bracket-search loop shared by
`SimulationDataExporter._find_snapshot_indices` (data_exporter.py lines
98-100) and the inline loop of `FrameInterpolator._interpolate_fire_states`
(interpolator.py lines 99-103): scan consecutive windows and return the first
`(i, i+1)` with `T[i] <= q <= T[i+1]`, or nothing when no window matches. -/
def find_bracket_aux (q : ℚ) : List ℚ → ℕ → Option (ℕ × ℕ)
  | t1 :: t2 :: rest, i =>
      if t1 ≤ q ∧ q ≤ t2 then some (i, i + 1)
      else find_bracket_aux q (t2 :: rest) (i + 1)
  | _, _ => none

/-- `SimulationDataExporter._find_snapshot_indices` (data_exporter.py lines
96-106): the window loop, then the fallback `if sim_time < sorted_times[0]:
return (0, 0) else return (N-1, N-1)`.  Indexing `sorted_times[0]` on an
empty list is a Python `IndexError`, modelled as the error branch. -/
def find_snapshot_indices (q : ℚ) (ts : List ℚ) : Except String (ℕ × ℕ) :=
  match find_bracket_aux q ts 0 with
  | some p => Except.ok p
  | none =>
    match ts with
    | [] => Except.error "IndexError"
    | t0 :: _ => if q < t0 then Except.ok (0, 0) else Except.ok (ts.length - 1, ts.length - 1)

/-- The inline bracket search of `FrameInterpolator._interpolate_fire_states`
(interpolator.py lines 96-103): `idx_before`/`idx_after` start at `0` and
`len(timestamps)-1` and keep those values when no window contains the query. -/
def fire_bracket (q : ℚ) (ts : List ℚ) : ℕ × ℕ :=
  match find_bracket_aux q ts 0 with
  | some p => p
  | none => (0, ts.length - 1)

/-- Blend factor, interpolator.py line 115 and data_exporter.py line 125:
`alpha = (target_time - t1) / (t2 - t1) if t2 != t1 else 0`. -/
def blend_alpha (target t1 t2 : ℚ) : ℚ :=
  if t2 ≠ t1 then (target - t1) / (t2 - t1) else 0

/-- `np.clip x lo hi` on scalars. -/
def clip (x lo hi : ℚ) : ℚ := min (max x lo) hi

/-- Indicator of a burning cell (`(grid_before == 2).astype(float)`,
interpolator.py line 156). -/
def burning_indicator (s : CellState) : ℚ := if s = CellState.Burning then 1 else 0

/-- Model of `scipy.ndimage.gaussian_filter(burning_before, sigma=1.5)`
(interpolator.py line 159): a kernel-weighted sum of the burning indicator
over a finite window.  The concrete Gaussian weights live in the external
library; the kernel is a parameter here, which is enough to evaluate the
filter exactly on a grid with no burning cells (it is zero for every
kernel). -/
def gaussian_influence (kernel : ℤ → ℤ → ℚ) (radius : ℕ)
    (grid : ℤ → ℤ → CellState) (x y : ℤ) : ℚ :=
  ∑ dx ∈ Finset.Icc (-(radius : ℤ)) (radius : ℤ),
    ∑ dy ∈ Finset.Icc (-(radius : ℤ)) (radius : ℤ),
      kernel dx dy * burning_indicator (grid (x + dx) (y + dy))

/-- Per-cell probability computed by
`FrameInterpolator._create_fire_front_probability` (interpolator.py lines
161-169): `probability = fire_influence * alpha * 2`, then
`probability += noise * alpha`, then `np.clip(probability, 0, 1)`.  The
`influence` argument is the Gaussian-filtered burning indicator and `noise`
the per-cell `np.random.normal(0, 0.1)` draw. -/
def fire_front_probability (influence noise alpha : ℚ) : ℚ :=
  clip (influence * alpha * 2 + noise * alpha) 0 1

/-- One cell of the mask assignments of
`FrameInterpolator._interpolate_fire_states` (interpolator.py lines 118-138):
starting from the before-state, set `Burning` on
`tree_to_burning & (transition_prob > u1)` and then `Burnt` on
`burning_to_burnt & (u2 < alpha ** 2)`; both masks are computed from the
before/after states, not from the intermediate result. -/
def transition_cell (sb sa : CellState) (p u1 u2 alpha : ℚ) : CellState :=
  let r1 := if sb = CellState.Tree ∧ sa = CellState.Burning ∧ p > u1 then CellState.Burning else sb
  if sb = CellState.Burning ∧ sa = CellState.Burnt ∧ u2 < alpha ^ 2 then CellState.Burnt else r1

/-- The state-transition core of `_interpolate_fire_states` (interpolator.py
lines 109-140) for a fixed bracket: grids are flat position-indexed lists;
`influence` and `noise` stand for the Gaussian-filter output and normal draws
inside `_create_fire_front_probability`, `u1`/`u2` for the two
`np.random.random(len(states_before))` arrays.  When `alpha <= 0` the guard
`if alpha > 0` skips every transition and the before-states are returned. -/
def interpolate_fire_states_core (before after : List CellState)
    (influence noise u1 u2 : List ℚ) (alpha : ℚ) : List CellState :=
  if alpha > 0 then
    (List.range before.length).map fun i =>
      transition_cell (before.getD i CellState.Empty) (after.getD i CellState.Empty)
        (fire_front_probability (influence.getD i 0) (noise.getD i 0) alpha)
        (u1.getD i 0) (u2.getD i 0) alpha
  else before

/-- A cell coordinate label. -/
abbrev Cell := ℕ × ℕ

/-- A pandas state `Series`: labelled cell states in index order. -/
abbrev StateSeries := List (Cell × CellState)

/-- `SimulationDataExporter._interpolate_states` (data_exporter.py lines
145-161): `changed_mask = states1 != states2` — a pandas comparison that
raises `ValueError` unless the two Series carry identical labels — then
`interpolated[changed_mask & (alpha > 0.5)] = states2[...]` with
`transition_threshold = 0.5`. -/
def interpolate_states_series (s1 s2 : StateSeries) (alpha : ℚ) :
    Except String StateSeries :=
  if s1.map Prod.fst = s2.map Prod.fst then
    Except.ok (List.zipWith (fun a b => if a.2 ≠ b.2 ∧ alpha > 1/2 then b else a) s1 s2)
  else Except.error "Can only compare identically-labeled Series objects"

/-- A camera keyframe record (camera_paths.py: `time`, `azimuth`,
`elevation`, `distance`). -/
structure CameraKeyframe where
  time : ℚ
  azimuth : ℚ
  elevation : ℚ
  distance : ℚ
  deriving DecidableEq, Repr, Inhabited

/-- A camera pose produced for one output frame (camera_paths.py lines
61-67). -/
structure CameraPose where
  frame : ℕ
  time : ℚ
  azimuth : ℚ
  elevation : ℚ
  distance : ℚ
  deriving DecidableEq, Repr, Inhabited

/-- Python `int()` on a rational: truncation toward zero. -/
def pyInt (q : ℚ) : ℤ := if 0 ≤ q then ⌊q⌋ else ⌈q⌉

/-- `np.searchsorted(xs, x)` with the default left side, on a sorted list:
the number of elements strictly below `x`. -/
def searchsorted_left (xs : List ℚ) (x : ℚ) : ℕ := (xs.filter (fun t => t < x)).length

/-- `scipy.interpolate.interp1d(xs, ys, kind='linear',
fill_value='extrapolate')` evaluated at `x`: locate the segment by a
searchsorted index clipped to `[1, len-1]`, then evaluate the segment's
linear polynomial — queries outside the knot range extrapolate using the
first or last segment. -/
def interp1d_linear (xs ys : List ℚ) (x : ℚ) : ℚ :=
  let hi := min (max (searchsorted_left xs x) 1) (xs.length - 1)
  let lo := hi - 1
  let x0 := xs.getD lo 0
  let x1 := xs.getD hi 0
  let y0 := ys.getD lo 0
  let y1 := ys.getD hi 0
  if x1 = x0 then y0 else y0 + (y1 - y0) * (x - x0) / (x1 - x0)

/-- `CameraPathController.generate_camera_path` (camera_paths.py lines
23-71): `total_frames = int(duration * fps)`, per-channel interpolators built
from the keyframes (`interp` abstracts `interp1d` with the chosen smoothing),
then one pose per frame index `f` evaluated at `t = f / fps`.  The channel
values are emitted raw: no validation or clamping is applied. -/
def generate_camera_path (interp : List ℚ → List ℚ → ℚ → ℚ)
    (key_points : List CameraKeyframe) (duration : ℚ) (fps : ℕ) : List CameraPose :=
  let total_frames := (pyInt (duration * (fps : ℚ))).toNat
  let times := key_points.map CameraKeyframe.time
  let azimuths := key_points.map CameraKeyframe.azimuth
  let elevations := key_points.map CameraKeyframe.elevation
  let distances := key_points.map CameraKeyframe.distance
  (List.range total_frames).map fun f =>
    { frame := f
      time := (f : ℚ) / (fps : ℚ)
      azimuth := interp times azimuths ((f : ℚ) / (fps : ℚ))
      elevation := interp times elevations ((f : ℚ) / (fps : ℚ))
      distance := interp times distances ((f : ℚ) / (fps : ℚ)) }

/-- The validation performed by `SimulationDataExporter.export_for_video`
(data_exporter.py lines 41-44): the timestamps are sorted by the exporter
itself, and only a length check is made. -/
def export_for_video_check (times : List ℚ) : Except String (List ℚ) :=
  let sorted_times := times.insertionSort (fun a b => a ≤ b)
  if sorted_times.length < 2 then Except.error "Need at least 2 snapshots for video generation"
  else Except.ok sorted_times

/-- Keyframes of the two-keyframe demo path used to exercise the camera path
synthesizer (the endpoints of the orbit preset, camera_paths.py lines 83 and
87). -/
def demo_keyframes : List CameraKeyframe :=
  [⟨0, -45, 30, 10⟩, ⟨5, 315, 30, 10⟩]

/-- Keyframes with a strictly decreasing distance channel, whose linear
extrapolation reaches zero at `t = 2` and is negative beyond. -/
def c8_keyframes : List CameraKeyframe :=
  [⟨0, 0, 30, 2⟩, ⟨1, 0, 30, 1⟩]

/-- Fire-front influence at the origin of a snapshot with no burning cell:
the Gaussian filter of an all-zero indicator, which is zero for every choice
of kernel weights (the all-ones weights below are as good as the real
Gaussian ones for that purpose). -/
def c3_influence : ℚ :=
  gaussian_influence (fun _ _ => 1) 6 (fun _ _ => CellState.Tree) 0 0

/-! ### Helper lemmas -/

/-- Indexing a map over `List.range`. -/
theorem getD_range_map {α : Type} (f : ℕ → α) (d : α) (n i : ℕ) (h : i < n) :
    ((List.range n).map f).getD i d = f i := by
  rw [List.getD_eq_getElem _ _ (by simpa using h)]
  simp

/-- `getD` at an in-range index is a member of the list. -/
theorem getD_mem_of_lt {α : Type} (l : List α) (k : ℕ) (d : α) (h : k < l.length) :
    l.getD k d ∈ l := by
  rw [List.getD_eq_getElem _ _ h]
  exact List.getElem_mem h

/-- Shifting the running index of the bracket-search loop shifts the returned
pair. -/
theorem find_bracket_aux_succ (q : ℚ) :
    ∀ (ts : List ℚ) (i : ℕ),
      find_bracket_aux q ts (i + 1) = (find_bracket_aux q ts i).map (fun p => (p.1 + 1, p.2 + 1))
  | [], _ => rfl
  | [_], _ => rfl
  | t1 :: t2 :: rest, i => by
      by_cases h : t1 ≤ q ∧ q ≤ t2
      · simp [find_bracket_aux, h]
      · simp only [find_bracket_aux, if_neg h]
        exact find_bracket_aux_succ q (t2 :: rest) (i + 1)

/-- The loop finds no window when the query is below every timestamp. -/
theorem find_bracket_aux_none_of_lt (q : ℚ) :
    ∀ (ts : List ℚ) (i : ℕ), (∀ t ∈ ts, q < t) → find_bracket_aux q ts i = none
  | [], _, _ => rfl
  | [_], _, _ => rfl
  | t1 :: t2 :: rest, i, h => by
      have h1 : q < t1 := h t1 (by simp)
      have hcond : ¬ (t1 ≤ q ∧ q ≤ t2) := fun hc => absurd hc.1 (not_le.mpr h1)
      simp only [find_bracket_aux, if_neg hcond]
      exact find_bracket_aux_none_of_lt q (t2 :: rest) (i + 1)
        (fun t ht => h t (List.mem_cons_of_mem _ ht))

/-- The loop finds no window when the query is above every timestamp. -/
theorem find_bracket_aux_none_of_gt (q : ℚ) :
    ∀ (ts : List ℚ) (i : ℕ), (∀ t ∈ ts, t < q) → find_bracket_aux q ts i = none
  | [], _, _ => rfl
  | [_], _, _ => rfl
  | t1 :: t2 :: rest, i, h => by
      have h2 : t2 < q := h t2 (by simp)
      have hcond : ¬ (t1 ≤ q ∧ q ≤ t2) := fun hc => absurd hc.2 (not_le.mpr h2)
      simp only [find_bracket_aux, if_neg hcond]
      exact find_bracket_aux_none_of_gt q (t2 :: rest) (i + 1)
        (fun t ht => h t (List.mem_cons_of_mem _ ht))

/-- Reduction of the resampler when the window loop succeeds. -/
theorem find_snapshot_indices_of_some (q : ℚ) (ts : List ℚ) (p : ℕ × ℕ)
    (h : find_bracket_aux q ts 0 = some p) :
    find_snapshot_indices q ts = Except.ok p := by
  unfold find_snapshot_indices
  rw [h]

/-- Reduction of the resampler to its fallback branch when the window loop
fails on a nonempty list. -/
theorem find_snapshot_indices_of_none (q t0 : ℚ) (rest : List ℚ)
    (h : find_bracket_aux q (t0 :: rest) 0 = none) :
    find_snapshot_indices q (t0 :: rest) =
      if q < t0 then Except.ok (0, 0)
      else Except.ok ((t0 :: rest).length - 1, (t0 :: rest).length - 1) := by
  unfold find_snapshot_indices
  rw [h]

/-- On a strictly increasing timestamp list, a query equal to `T[k+1]` is
caught by the window starting at `k`: the loop returns `(k, k+1)`, not
`(k+1, k+1)`. -/
theorem find_bracket_aux_exact :
    ∀ (k : ℕ) (ts : List ℚ), ts.Sorted (· < ·) → k + 1 < ts.length →
      find_bracket_aux (ts.getD (k + 1) 0) ts 0 = some (k, k + 1)
  | 0, t0 :: t1 :: _, hs, _ => by
      have h01 : t0 ≤ t1 := le_of_lt ((List.sorted_cons.mp hs).1 t1 (by simp))
      simp [find_bracket_aux, h01]
  | k + 1, t0 :: t1 :: rest, hs, hk => by
      have htail : (t1 :: rest).Sorted (· < ·) := (List.sorted_cons.mp hs).2
      have hk' : k + 1 < (t1 :: rest).length := by simpa using Nat.lt_of_succ_lt_succ hk
      have hkr : k < rest.length := by simpa using Nat.lt_of_succ_lt_succ hk'
      have hmem : (t1 :: rest).getD (k + 1) 0 ∈ rest := by
        rw [List.getD_cons_succ]
        exact getD_mem_of_lt rest k 0 hkr
      have hgt : t1 < (t1 :: rest).getD (k + 1) 0 :=
        (List.sorted_cons.mp htail).1 _ hmem
      have hq : (t0 :: t1 :: rest).getD (k + 2) 0 = (t1 :: rest).getD (k + 1) 0 := by
        rw [List.getD_cons_succ]
      rw [hq]
      have hcond : ¬ (t0 ≤ (t1 :: rest).getD (k + 1) 0 ∧ (t1 :: rest).getD (k + 1) 0 ≤ t1) :=
        fun hc => absurd hc.2 (not_le.mpr hgt)
      show find_bracket_aux ((t1 :: rest).getD (k + 1) 0) (t0 :: t1 :: rest) 0 = _
      simp only [find_bracket_aux, if_neg hcond]
      rw [find_bracket_aux_succ, find_bracket_aux_exact k (t1 :: rest) htail hk']
      rfl

/-- In a sorted list, the head is a lower bound. -/
theorem sorted_head_le (t0 : ℚ) (rest : List ℚ) (h : (t0 :: rest).Sorted (· < ·)) :
    ∀ t ∈ t0 :: rest, t0 ≤ t := by
  intro t ht
  rcases List.mem_cons.mp ht with h1 | h2
  · exact le_of_eq h1.symm
  · exact le_of_lt ((List.sorted_cons.mp h).1 t h2)

/-- In a sorted list, the last element is an upper bound. -/
theorem sorted_le_last :
    ∀ (ts : List ℚ), ts.Sorted (· < ·) → ∀ t ∈ ts, t ≤ ts.getD (ts.length - 1) 0
  | [], _, t, ht => absurd ht (List.not_mem_nil t)
  | [t0], _, t, ht => by
      simp only [List.mem_singleton] at ht
      simp [ht]
  | t0 :: t1 :: rest, h, t, ht => by
      have htail := (List.sorted_cons.mp h).2
      have hstep : (t0 :: t1 :: rest).getD ((t0 :: t1 :: rest).length - 1) 0
          = (t1 :: rest).getD ((t1 :: rest).length - 1) 0 := by
        simp [List.getD_cons_succ]
      rw [hstep]
      rcases List.mem_cons.mp ht with h1 | h2
      · calc t = t0 := h1
          _ ≤ t1 := le_of_lt ((List.sorted_cons.mp h).1 t1 (by simp))
          _ ≤ _ := sorted_le_last (t1 :: rest) htail t1 (by simp)
      · exact sorted_le_last (t1 :: rest) htail t h2

/-- `transition_cell` leaves a cell alone when before and after states
agree. -/
theorem transition_cell_same (s : CellState) (p u1 u2 alpha : ℚ) :
    transition_cell s s p u1 u2 alpha = s := by
  cases s <;> simp [transition_cell]

/-- `transition_cell` can only produce the before-state or the
after-state. -/
theorem transition_cell_mem (sb sa : CellState) (p u1 u2 alpha : ℚ) :
    transition_cell sb sa p u1 u2 alpha = sb ∨ transition_cell sb sa p u1 u2 alpha = sa := by
  simp only [transition_cell]
  split_ifs with h2 h1
  · exact Or.inr h2.2.1.symm
  · exact Or.inr h1.2.1.symm
  · exact Or.inl rfl

/-- The Gaussian influence field of a snapshot with no burning cell is
exactly zero, whatever the kernel weights. -/
theorem gaussian_influence_no_burning (kernel : ℤ → ℤ → ℚ) (radius : ℕ)
    (grid : ℤ → ℤ → CellState) (hg : ∀ a b, grid a b ≠ CellState.Burning) (x y : ℤ) :
    gaussian_influence kernel radius grid x y = 0 := by
  unfold gaussian_influence
  refine Finset.sum_eq_zero (fun dx _ => Finset.sum_eq_zero (fun dy _ => ?_))
  simp [burning_indicator, hg]

/-! ### Claims about the Snapshot Resampler -/

/-- C1 counterexample: the timestamp sequence `[0, 1]` is sorted and the
query `1` equals `T[1]`, yet the resampler returns the bracket `(0, 1)`, not
`(1, 1)`; the bracket has blend factor `1`, and running the fire-state
transition at `alpha = 1` (influence and noise zero, uniform draw `1/2`) on
`S_0 = [Tree]`, `S_1 = [Burning]` leaves the cell `Tree`, so the frame is
neither a copy of `S_1` nor deterministic short-circuiting. -/
theorem C1_counterexample :
    find_snapshot_indices 1 [0, 1] = Except.ok (0, 1) ∧
    ((0 : ℕ), (1 : ℕ)) ≠ ((1 : ℕ), (1 : ℕ)) ∧
    blend_alpha 1 0 1 = 1 ∧
    interpolate_fire_states_core [CellState.Tree] [CellState.Burning] [0] [0] [1/2] [1/2] 1
      = [CellState.Tree] ∧
    [CellState.Tree] ≠ [CellState.Burning] := by
  refine ⟨by norm_num [find_snapshot_indices, find_bracket_aux], by decide,
    by norm_num [blend_alpha], ?_, by decide⟩
  norm_num [interpolate_fire_states_core, transition_cell, fire_front_probability, clip,
    List.range_succ]
  decide

/-- C1 (amended): for a strictly increasing timestamp list, a query exactly
equal to `T[k]` with `k ≥ 1` yields the bracket `(k-1, k)` and a query equal
to `T[0]` yields `(0, 1)`; the fire-state interpolation short-circuits (and
is thus deterministic) only when the blend factor is not positive, returning
the before-snapshot's states unchanged. -/
theorem C1_exact_query (ts : List ℚ) (hs : ts.Sorted (· < ·)) (k : ℕ) (hk : k + 1 < ts.length)
    (before after : List CellState) (influence noise u1 u2 : List ℚ) (alpha : ℚ)
    (halpha : ¬ alpha > 0) :
    find_snapshot_indices (ts.getD (k + 1) 0) ts = Except.ok (k, k + 1) ∧
    find_snapshot_indices (ts.getD 0 0) ts = Except.ok (0, 1) ∧
    interpolate_fire_states_core before after influence noise u1 u2 alpha = before := by
  refine ⟨?_, ?_, ?_⟩
  · exact find_snapshot_indices_of_some _ _ _ (find_bracket_aux_exact k ts hs hk)
  · match ts, hk, hs with
    | t0 :: t1 :: rest, _, hs =>
      have h01 : t0 ≤ t1 := le_of_lt ((List.sorted_cons.mp hs).1 t1 (by simp))
      simp [find_snapshot_indices, find_bracket_aux, h01]
  · unfold interpolate_fire_states_core
    rw [if_neg halpha]

/-- C1 witness: instance of the amended statement on `T = [0, 1, 2]`,
`k = 0`. -/
theorem C1_exact_query_witness :
    find_snapshot_indices 1 [0, 1, 2] = Except.ok (0, 1) ∧
    find_snapshot_indices 0 [0, 1, 2] = Except.ok (0, 1) ∧
    interpolate_fire_states_core [CellState.Tree] [CellState.Burning] [1] [0] [0] [0] 0
      = [CellState.Tree] := by
  have h := C1_exact_query [0, 1, 2] (by norm_num [List.sorted_cons]) 0 (by norm_num)
    [CellState.Tree] [CellState.Burning] [1] [0] [0] [0] 0 (by norm_num)
  simpa using h

/-- C2 counterexample: for the sorted sequence `[0, 1]` and the query
`q = 0 = T[0]` (so `q ≤ T[0]`), the resampler returns `(0, 1)`, not the
claimed clamp `(0, 0)`. -/
theorem C2_counterexample :
    find_snapshot_indices 0 [0, 1] = Except.ok (0, 1) ∧
    ((0 : ℕ), (1 : ℕ)) ≠ ((0 : ℕ), (0 : ℕ)) := by
  exact ⟨by norm_num [find_snapshot_indices, find_bracket_aux], by decide⟩

/-- C2 (amended): the clamps hold only for strict out-of-range queries: for
a strictly increasing nonempty `T`, a query strictly below `T[0]` yields
`(0, 0)` and a query strictly above `T[N-1]` yields `(N-1, N-1)`; a query
exactly equal to `T[0]` (resp. `T[N-1]`) is instead caught by the first
(resp. last) window when `N ≥ 2`. -/
theorem C2_clamp (ts : List ℚ) (q : ℚ) (hs : ts.Sorted (· < ·)) (hne : ts ≠ []) :
    (q < ts.getD 0 0 → find_snapshot_indices q ts = Except.ok (0, 0)) ∧
    (ts.getD (ts.length - 1) 0 < q →
      find_snapshot_indices q ts = Except.ok (ts.length - 1, ts.length - 1)) := by
  match ts, hne with
  | t0 :: rest, _ =>
    constructor
    · intro hq
      rw [List.getD_cons_zero] at hq
      have hall : ∀ t ∈ t0 :: rest, q < t :=
        fun t ht => lt_of_lt_of_le hq (sorted_head_le t0 rest hs t ht)
      rw [find_snapshot_indices_of_none q t0 rest (find_bracket_aux_none_of_lt q (t0 :: rest) 0 hall),
        if_pos hq]
    · intro hq
      have hall : ∀ t ∈ t0 :: rest, t < q :=
        fun t ht => lt_of_le_of_lt (sorted_le_last (t0 :: rest) hs t ht) hq
      have ht0 : t0 < q := hall t0 (by simp)
      rw [find_snapshot_indices_of_none q t0 rest (find_bracket_aux_none_of_gt q (t0 :: rest) 0 hall),
        if_neg (not_lt.mpr (le_of_lt ht0))]

/-- C2 witness: the amended clamps on `T = [0, 1]` with `q = -1` and
`q = 5`. -/
theorem C2_clamp_witness :
    find_snapshot_indices (-1) [0, 1] = Except.ok (0, 0) ∧
    find_snapshot_indices 5 [0, 1] = Except.ok (1, 1) := by
  constructor
  · exact (C2_clamp [0, 1] (-1) (by norm_num [List.sorted_cons]) (by simp)).1 (by norm_num)
  · have h := (C2_clamp [0, 1] 5 (by norm_num [List.sorted_cons]) (by simp)).2 (by norm_num)
    simpa using h

/-- C7 counterexample: the non-increasing timestamp sequence `[5, 2, 8]`
raises nothing: the resampler happily returns the bracket `(1, 2)` for the
query `3`, and the exporter's own validation sorts the sequence and accepts
it. -/
theorem C7_counterexample :
    find_snapshot_indices 3 [5, 2, 8] = Except.ok (1, 2) ∧
    export_for_video_check [5, 2, 8] = Except.ok [2, 5, 8] := by
  constructor
  · norm_num [find_snapshot_indices, find_bracket_aux]
  · norm_num [export_for_video_check, List.insertionSort, List.orderedInsert]

/-- C7 (amended): the resampler performs no input validation at all: on any
nonempty timestamp list — sorted or not — it returns a bracket pair, and the
only failure mode is the `IndexError` of indexing an empty list; upstream,
the exporter sorts the timestamps itself and only checks that at least two
snapshots exist. -/
theorem C7_no_validation (q : ℚ) (ts : List ℚ) (hne : ts ≠ []) :
    (∃ p, find_snapshot_indices q ts = Except.ok p) ∧
    find_snapshot_indices q [] = Except.error "IndexError" := by
  constructor
  · rcases hb : find_bracket_aux q ts 0 with _ | p
    · match ts, hne, hb with
      | t0 :: rest, _, hb =>
        by_cases hq : q < t0
        · exact ⟨(0, 0), by rw [find_snapshot_indices_of_none q t0 rest hb, if_pos hq]⟩
        · exact ⟨((t0 :: rest).length - 1, (t0 :: rest).length - 1),
            by rw [find_snapshot_indices_of_none q t0 rest hb, if_neg hq]⟩
    · exact ⟨p, find_snapshot_indices_of_some q ts p hb⟩
  · rfl

/-- C7 witness: the amended statement on the spec's own malformed input
`[5, 2, 8]`. -/
theorem C7_no_validation_witness :
    (∃ p, find_snapshot_indices 3 [5, 2, 8] = Except.ok p) ∧
    find_snapshot_indices 3 [] = Except.error "IndexError" :=
  C7_no_validation 3 [5, 2, 8] (by simp)

/-- Indexing a `zipWith` when in range. -/
theorem getD_zipWith {α : Type} (f : α → α → α) (d : α) :
    ∀ (l1 l2 : List α) (j : ℕ), j < (List.zipWith f l1 l2).length →
      (List.zipWith f l1 l2).getD j d = f (l1.getD j d) (l2.getD j d)
  | [], _, j, h => absurd h (by simp)
  | _ :: _, [], j, h => absurd h (by simp)
  | _ :: _, _ :: _, 0, _ => rfl
  | _ :: l1, _ :: l2, j + 1, h => getD_zipWith f d l1 l2 j (by simpa using h)

/-! ### Claims about the Field Interpolator's stochastic transition -/

/-- C3 counterexample: take `S_i` a snapshot with no burning cell at all
(a single Tree cell) and `S_j` the same cell Burning.  The Gaussian blur of
the burning indicator of `S_i` is exactly `0` — for any kernel weights — so
the claimed per-cell ignition probability `influence * alpha` is `0` and the
cell could never ignite.  The code instead assigns
`clip(influence*alpha*2 + noise*alpha, 0, 1) = 1/20` for the normal draw
`noise = 1/10` at `alpha = 1/2`, and the cell does ignite against the
uniform draw `1/100`. -/
theorem C3_counterexample :
    c3_influence = 0 ∧
    fire_front_probability c3_influence (1/10) (1/2) = 1/20 ∧
    interpolate_fire_states_core [CellState.Tree] [CellState.Burning]
      [c3_influence] [1/10] [1/100] [0] (1/2) = [CellState.Burning] ∧
    ¬ c3_influence * (1/2) > (1/100 : ℚ) := by
  have h0 : c3_influence = 0 :=
    gaussian_influence_no_burning _ _ _ (fun _ _ => by decide) 0 0
  refine ⟨h0, ?_, ?_, ?_⟩
  · rw [h0]
    norm_num [fire_front_probability, clip]
  · rw [h0]
    norm_num [interpolate_fire_states_core, transition_cell, fire_front_probability, clip,
      List.range_succ]
    decide
  · rw [h0]
    norm_num

/-- C3 (amended): for a cell transitioning Tree to Burning at `alpha > 0`,
the code resolves ignition by comparing the uniform draw with
`clip(influence*alpha*2 + noise*alpha, 0, 1)` — the Gaussian-blur influence
scaled by `2*alpha` plus a Gaussian noise term, clipped to `[0, 1]` — not
with `influence*alpha`; a cell transitioning Burning to Burnt is resolved
against probability `alpha^2` as claimed. -/
theorem C3_transition_rule (before after : List CellState) (influence noise u1 u2 : List ℚ)
    (alpha : ℚ) (halpha : alpha > 0) (i : ℕ) (hi : i < before.length) :
    (before.getD i CellState.Empty = CellState.Tree →
      after.getD i CellState.Empty = CellState.Burning →
      ((interpolate_fire_states_core before after influence noise u1 u2 alpha).getD i
          CellState.Empty = CellState.Burning ↔
        fire_front_probability (influence.getD i 0) (noise.getD i 0) alpha > u1.getD i 0)) ∧
    (before.getD i CellState.Empty = CellState.Burning →
      after.getD i CellState.Empty = CellState.Burnt →
      ((interpolate_fire_states_core before after influence noise u1 u2 alpha).getD i
          CellState.Empty = CellState.Burnt ↔
        u2.getD i 0 < alpha ^ 2)) := by
  have hcore : (interpolate_fire_states_core before after influence noise u1 u2 alpha).getD i
      CellState.Empty = transition_cell (before.getD i CellState.Empty)
        (after.getD i CellState.Empty)
        (fire_front_probability (influence.getD i 0) (noise.getD i 0) alpha)
        (u1.getD i 0) (u2.getD i 0) alpha := by
    unfold interpolate_fire_states_core
    rw [if_pos halpha]
    exact getD_range_map _ _ _ _ hi
  rw [hcore]
  constructor
  · intro hb ha
    rw [hb, ha]
    simp only [transition_cell]
    by_cases hp : fire_front_probability (influence.getD i 0) (noise.getD i 0) alpha > u1.getD i 0
    · simp [hp]
    · simp [hp]
  · intro hb ha
    rw [hb, ha]
    simp only [transition_cell]
    by_cases hu : u2.getD i 0 < alpha ^ 2
    · simp [hu]
    · simp [hu]

/-- C3 witness: a Tree cell with full influence ignites at `alpha = 1/2`
against the uniform draw `1/4`. -/
theorem C3_transition_rule_witness :
    (interpolate_fire_states_core [CellState.Tree] [CellState.Burning] [1] [0] [1/4] [0]
      (1/2)).getD 0 CellState.Empty = CellState.Burning := by
  have h := (C3_transition_rule [CellState.Tree] [CellState.Burning] [1] [0] [1/4] [0]
    (1/2) (by norm_num) 0 (by norm_num)).1 rfl rfl
  exact h.mpr (by norm_num [fire_front_probability, clip])

/-- C9: a cell whose state agrees in the two bracket snapshots keeps exactly
that state in the synthetic frame, for every blend factor in `[0, 1]` and
every influence, noise and uniform draw. -/
theorem C9_unchanged (before after : List CellState) (influence noise u1 u2 : List ℚ)
    (alpha : ℚ) (_h0 : 0 ≤ alpha) (_h1 : alpha ≤ 1) (i : ℕ) (hi : i < before.length)
    (heq : before.getD i CellState.Empty = after.getD i CellState.Empty) :
    (interpolate_fire_states_core before after influence noise u1 u2 alpha).getD i
      CellState.Empty = before.getD i CellState.Empty := by
  unfold interpolate_fire_states_core
  by_cases ha : alpha > 0
  · rw [if_pos ha, getD_range_map _ _ _ _ hi, ← heq, transition_cell_same]
  · rw [if_neg ha]

/-- C9 witness: an unchanged Burning cell stays Burning at `alpha = 1/2`
even with draws that would fire both transition masks. -/
theorem C9_unchanged_witness :
    (interpolate_fire_states_core [CellState.Burning] [CellState.Burning] [1] [1] [0] [0]
      (1/2)).getD 0 CellState.Empty = CellState.Burning := by
  have h := C9_unchanged [CellState.Burning] [CellState.Burning] [1] [1] [0] [0] (1/2)
    (by norm_num) (by norm_num) 0 (by norm_num) rfl
  simpa using h

/-- C10: the synthetic frame's state at any cell is either that cell's
before-state or its after-state — never a third value — both for the
stochastic transition of the frame interpolator and for the threshold
transition of the data exporter. -/
theorem C10_no_third_state (before after : List CellState) (influence noise u1 u2 : List ℚ)
    (alpha : ℚ) (i : ℕ) (hi : i < before.length)
    (s1 s2 : StateSeries) (out : StateSeries) (j : ℕ)
    (hout : interpolate_states_series s1 s2 alpha = Except.ok out)
    (hj : j < out.length) :
    ((interpolate_fire_states_core before after influence noise u1 u2 alpha).getD i
        CellState.Empty = before.getD i CellState.Empty ∨
      (interpolate_fire_states_core before after influence noise u1 u2 alpha).getD i
        CellState.Empty = after.getD i CellState.Empty) ∧
    ((out.getD j ((0, 0), CellState.Empty)).2 = (s1.getD j ((0, 0), CellState.Empty)).2 ∨
      (out.getD j ((0, 0), CellState.Empty)).2 = (s2.getD j ((0, 0), CellState.Empty)).2) := by
  constructor
  · unfold interpolate_fire_states_core
    by_cases ha : alpha > 0
    · rw [if_pos ha, getD_range_map _ _ _ _ hi]
      exact transition_cell_mem _ _ _ _ _ _
    · rw [if_neg ha]
      exact Or.inl rfl
  · unfold interpolate_states_series at hout
    by_cases hl : s1.map Prod.fst = s2.map Prod.fst
    · rw [if_pos hl] at hout
      have hout' : out = List.zipWith (fun a b => if a.2 ≠ b.2 ∧ alpha > 1/2 then b else a) s1 s2 :=
        (Except.ok.inj hout).symm
      rw [hout'] at hj
      rw [hout', getD_zipWith _ _ s1 s2 j hj]
      by_cases hc : (s1.getD j ((0, 0), CellState.Empty)).2
          ≠ (s2.getD j ((0, 0), CellState.Empty)).2 ∧ alpha > 1/2
      · rw [if_pos hc]
        exact Or.inr rfl
      · rw [if_neg hc]
        exact Or.inl rfl
    · rw [if_neg hl] at hout
      exact absurd hout (by simp)

/-- C10 witness: instance at a Tree-to-Burning cell with `alpha = 3/4` and
an exporter series pair whose single cell switches to the after-state. -/
theorem C10_no_third_state_witness :
    ((interpolate_fire_states_core [CellState.Tree] [CellState.Burning] [1] [0] [0] [1]
        (3/4)).getD 0 CellState.Empty = CellState.Tree ∨
      (interpolate_fire_states_core [CellState.Tree] [CellState.Burning] [1] [0] [0] [1]
        (3/4)).getD 0 CellState.Empty = CellState.Burning) ∧
    (([((0, 0), CellState.Burnt)].getD 0 ((0, 0), CellState.Empty)).2
        = ([((0, 0), CellState.Tree)].getD 0 ((0, 0), CellState.Empty)).2 ∨
      ([((0, 0), CellState.Burnt)].getD 0 ((0, 0), CellState.Empty)).2
        = ([((0, 0), CellState.Burnt)].getD 0 ((0, 0), CellState.Empty)).2) := by
  have hout : interpolate_states_series [((0, 0), CellState.Tree)]
      [((0, 0), CellState.Burnt)] (3/4) = Except.ok [((0, 0), CellState.Burnt)] := by
    norm_num [interpolate_states_series]
  exact C10_no_third_state [CellState.Tree] [CellState.Burning] [1] [0] [0] [1] (3/4)
    0 (by norm_num) [((0, 0), CellState.Tree)] [((0, 0), CellState.Burnt)]
    [((0, 0), CellState.Burnt)] 0 hout (by norm_num)

/-! ### Claims about the blend factor and partial coverage -/

/-- C4 counterexample: a reachable out-of-range query: on `T = [0, 1, 2]`
the interpolator's bracket search leaves the default bracket `(0, 2)` for
the query `4`, and the blend factor then evaluates to `2` — the code never
clamps it to `[0, 1]` (the claimed clamped value is `1`). -/
theorem C4_counterexample :
    fire_bracket 4 [0, 1, 2] = (0, 2) ∧
    blend_alpha 4 0 2 = 2 ∧
    blend_alpha 4 0 2 ≠ max 0 (min 1 ((4 - 0) / (2 - 0))) := by
  refine ⟨?_, ?_, ?_⟩
  · norm_num [fire_bracket, find_bracket_aux]
  · norm_num [blend_alpha]
  · norm_num [blend_alpha]

/-- C4 (amended): the blend factor is `0` on a zero-duration bracket (no
division by zero) and otherwise the raw ratio `(q - t_i) / (t_j - t_i)`
with no clamping; for queries inside the bracket the raw ratio happens to
lie in `[0, 1]`, but out-of-range queries leave it unclamped. -/
theorem C4_blend (q t1 t2 : ℚ) (hle : t1 ≤ t2) :
    (t1 = t2 → blend_alpha q t1 t2 = 0) ∧
    (t1 ≠ t2 → blend_alpha q t1 t2 = (q - t1) / (t2 - t1)) ∧
    (t1 ≠ t2 → t1 ≤ q → q ≤ t2 → 0 ≤ blend_alpha q t1 t2 ∧ blend_alpha q t1 t2 ≤ 1) := by
  refine ⟨?_, ?_, ?_⟩
  · intro h
    unfold blend_alpha
    rw [if_neg (by simp [h])]
  · intro h
    unfold blend_alpha
    rw [if_pos (fun hc => h hc.symm)]
  · intro h hq1 hq2
    have hlt : t1 < t2 := lt_of_le_of_ne hle h
    have hpos : 0 < t2 - t1 := sub_pos.mpr hlt
    unfold blend_alpha
    rw [if_pos (fun hc => h hc.symm)]
    constructor
    · exact div_nonneg (sub_nonneg.mpr hq1) (le_of_lt hpos)
    · rw [div_le_one hpos]
      exact sub_le_sub_right hq2 t1

/-- C4 witness: the amended statement at the degenerate bracket `(0, 0)` and
at the bracket `(0, 2)` with interior query `1`. -/
theorem C4_blend_witness :
    blend_alpha 1 0 0 = 0 ∧
    blend_alpha 1 0 2 = (1 - 0) / (2 - 0) ∧
    0 ≤ blend_alpha 1 0 2 ∧ blend_alpha 1 0 2 ≤ 1 := by
  refine ⟨(C4_blend 1 0 0 le_rfl).1 rfl, (C4_blend 1 0 2 (by norm_num)).2.1 (by norm_num), ?_⟩
  exact (C4_blend 1 0 2 (by norm_num)).2.2 (by norm_num) (by norm_num) (by norm_num)

/-- The per-position state pick of the exporter keeps the labels of the
first series whenever the two series are identically labelled. -/
theorem zipWith_states_labels (alpha : ℚ) :
    ∀ (s1 s2 : StateSeries), s1.map Prod.fst = s2.map Prod.fst →
      (List.zipWith (fun a b => if a.2 ≠ b.2 ∧ alpha > 1/2 then b else a) s1 s2).map Prod.fst
        = s1.map Prod.fst
  | [], _, _ => by simp
  | _ :: _, [], h => by simp at h
  | a :: t1, b :: t2, h => by
      simp only [List.map_cons, List.cons.injEq] at h
      have htail := zipWith_states_labels alpha t1 t2 h.2
      simp only [List.zipWith_cons_cons, List.map_cons]
      by_cases hc : a.2 ≠ b.2 ∧ alpha > 1/2
      · rw [if_pos hc, ← h.1, htail]
      · rw [if_neg hc, htail]

/-- C5 counterexample: interpolating the spec's own scenario — `S_i` with
cells `{(0,0): Tree}` and `S_j` with cells `{(0,0): Tree, (1,1): Burning}` —
does not exclude `(1,1)` and log a warning: the pandas comparison of the two
differently-labelled state Series raises, so the whole interpolation fails
and no frame is produced at all. -/
theorem C5_counterexample :
    interpolate_states_series [((0, 0), CellState.Tree)]
      [((0, 0), CellState.Tree), ((1, 1), CellState.Burning)] (1/4) =
      Except.error "Can only compare identically-labeled Series objects" := by
  norm_num [interpolate_states_series]

/-- C5 (amended): a cell-set mismatch between the bracket snapshots makes
the state interpolation fail with the pandas error about
differently-labelled Series (no coverage warning, no partial frame); only
identically-labelled snapshots produce a frame, and that frame carries
exactly the cells of `S_i`. -/
theorem C5_partial_coverage (s1 s2 : StateSeries) (alpha : ℚ) :
    (s1.map Prod.fst ≠ s2.map Prod.fst →
      interpolate_states_series s1 s2 alpha =
        Except.error "Can only compare identically-labeled Series objects") ∧
    (s1.map Prod.fst = s2.map Prod.fst →
      ∃ out, interpolate_states_series s1 s2 alpha = Except.ok out ∧
        out.map Prod.fst = s1.map Prod.fst) := by
  constructor
  · intro h
    unfold interpolate_states_series
    rw [if_neg h]
  · intro h
    unfold interpolate_states_series
    rw [if_pos h]
    exact ⟨_, rfl, zipWith_states_labels alpha s1 s2 h⟩

/-- C5 witness: the amended statement on a mismatched pair and on a matched
pair. -/
theorem C5_partial_coverage_witness :
    interpolate_states_series [((0, 0), CellState.Tree)] [((1, 1), CellState.Tree)] 1 =
      Except.error "Can only compare identically-labeled Series objects" ∧
    ∃ out, interpolate_states_series [((0, 0), CellState.Tree)]
        [((0, 0), CellState.Burning)] 1 = Except.ok out ∧
      out.map Prod.fst = [((0, 0) : Cell)] := by
  constructor
  · exact (C5_partial_coverage [((0, 0), CellState.Tree)] [((1, 1), CellState.Tree)] 1).1
      (by decide)
  · have h := (C5_partial_coverage [((0, 0), CellState.Tree)]
      [((0, 0), CellState.Burning)] 1).2 (by decide)
    simpa using h

/-! ### Claims about the Camera Path Synthesizer -/

/-- C6: for any per-channel interpolation scheme, any keyframe list with at
least two strictly increasing times, any nonnegative duration and positive
fps, the synthesizer emits exactly `floor(duration * fps)` poses, the pose
at index `f` carrying frame number `f` and time `f / fps`. -/
theorem C6_camera_path (interp : List ℚ → List ℚ → ℚ → ℚ) (key_points : List CameraKeyframe)
    (duration : ℚ) (fps : ℕ) (hd : 0 ≤ duration) (_hfps : 0 < fps)
    (_hkp : 2 ≤ key_points.length)
    (_hsorted : (key_points.map CameraKeyframe.time).Sorted (· < ·)) :
    (generate_camera_path interp key_points duration fps).length
        = (⌊duration * (fps : ℚ)⌋).toNat ∧
    ∀ f : ℕ, f < (generate_camera_path interp key_points duration fps).length →
      ((generate_camera_path interp key_points duration fps).getD f default).frame = f ∧
      ((generate_camera_path interp key_points duration fps).getD f default).time
        = (f : ℚ) / (fps : ℚ) := by
  have hnn : 0 ≤ duration * (fps : ℚ) := mul_nonneg hd (by positivity)
  have hlen : (generate_camera_path interp key_points duration fps).length
      = (⌊duration * (fps : ℚ)⌋).toNat := by
    unfold generate_camera_path pyInt
    rw [if_pos hnn]
    simp
  refine ⟨hlen, fun f hf => ?_⟩
  rw [hlen] at hf
  have hf' : f < (pyInt (duration * (fps : ℚ))).toNat := by
    unfold pyInt
    rwa [if_pos hnn]
  constructor
  · show ((generate_camera_path interp key_points duration fps).getD f default).frame = f
    unfold generate_camera_path
    rw [getD_range_map _ _ _ _ hf']
  · show ((generate_camera_path interp key_points duration fps).getD f default).time = _
    unfold generate_camera_path
    rw [getD_range_map _ _ _ _ hf']

/-- C6 witness: the spec's own instance — 5 seconds at 60 fps on a
two-keyframe path gives exactly 300 poses, the first at time `0` and the
last at time `299/60`. -/
theorem C6_camera_path_witness :
    (generate_camera_path interp1d_linear demo_keyframes 5 60).length = 300 ∧
    ((generate_camera_path interp1d_linear demo_keyframes 5 60).getD 0 default).time = 0 ∧
    ((generate_camera_path interp1d_linear demo_keyframes 5 60).getD 299 default).time
      = 299/60 := by
  have h := C6_camera_path interp1d_linear demo_keyframes 5 60 (by norm_num) (by norm_num)
    (by norm_num [demo_keyframes]) (by norm_num [demo_keyframes, List.sorted_cons])
  have hlen : (generate_camera_path interp1d_linear demo_keyframes 5 60).length = 300 := by
    rw [h.1]
    norm_num
    rfl
  refine ⟨hlen, ?_, ?_⟩
  · have ht := (h.2 0 (by rw [hlen]; norm_num)).2
    rw [ht]
    norm_num
  · have ht := (h.2 299 (by rw [hlen]; norm_num)).2
    rw [ht]
    norm_num

/-- C8 counterexample: with the supported `linear` smoothing and keyframes
whose distance falls from 2 to 1 over `[0, 1]`, the pose for frame 3 of a
4-second 1-fps path is extrapolated to distance `-1`: the returned path does
contain a pose with non-positive distance, and no clamp intervenes. -/
theorem C8_counterexample :
    ((generate_camera_path interp1d_linear c8_keyframes 4 1).getD 3 default).distance = -1 ∧
    ¬ (0 < ((generate_camera_path interp1d_linear c8_keyframes 4 1).getD 3
        default).distance) := by
  have h : ((generate_camera_path interp1d_linear c8_keyframes 4 1).getD 3
      default).distance = -1 := by
    norm_num [generate_camera_path, interp1d_linear, searchsorted_left, pyInt, c8_keyframes,
      List.filter, List.range_succ]
  refine ⟨h, ?_⟩
  rw [h]
  norm_num

/-- C8 (amended): the synthesizer performs no output-boundary validation or
clamping at all: the distance of every returned pose is exactly the raw
value of the distance-channel interpolator at `f / fps`, whatever that value
is (the counterexample shows it can be negative under extrapolation). -/
theorem C8_raw_distance (interp : List ℚ → List ℚ → ℚ → ℚ) (key_points : List CameraKeyframe)
    (duration : ℚ) (fps : ℕ) (f : ℕ)
    (hf : f < (generate_camera_path interp key_points duration fps).length) :
    ((generate_camera_path interp key_points duration fps).getD f default).distance
      = interp (key_points.map CameraKeyframe.time) (key_points.map CameraKeyframe.distance)
          ((f : ℚ) / (fps : ℚ)) := by
  have hf' : f < (pyInt (duration * (fps : ℚ))).toNat := by
    have := hf
    unfold generate_camera_path at this
    simpa using this
  show ((generate_camera_path interp key_points duration fps).getD f default).distance = _
  unfold generate_camera_path
  rw [getD_range_map _ _ _ _ hf']

/-- C8 witness: the raw passthrough at frame 0 of the counterexample path:
the pose distance is the distance interpolator's value at time 0. -/
theorem C8_raw_distance_witness :
    ((generate_camera_path interp1d_linear c8_keyframes 4 1).getD 0 default).distance
      = interp1d_linear [0, 1] [2, 1] 0 := by
  have h := C8_raw_distance interp1d_linear c8_keyframes 4 1 0
    (by norm_num [generate_camera_path, pyInt])
  rw [h]
  norm_num [c8_keyframes]

